import Mathlib

/-!
Shallow embedding of the netcheck latency visualizer's core — the
sliding-window sample buffer (`appendData`), the frame renderers
(`renderFrame` in `src/unnamed/part_000`, the N-series iteration exercised by
the test suite, and `renderFrameMain` for the two-series iteration in
`src/main.go`), and the aggregation loop of `src/unnamed/part_000`
(`stepEvent` / `runLoop`) — together with proofs of the specified
properties.

Modelling conventions:
* Go `float64` history values are modelled as `Int`: every value a history
  ever stores is `float64(rtt)` for an `int64` RTT sample, an exact
  conversion at these magnitudes, and the properties proved here concern
  lengths, ordering and equality of the stored samples, all of which that
  conversion preserves.
* Go `int` quantities that can go negative (terminal width, frame limits,
  width arithmetic) are modelled as `Int`; counters that only grow from zero
  are `Nat`.
* The float expression `float64(maxRTT) * 0.1` (vertical padding) is modelled
  in `ℚ`; it flows only into the opaque plotting library and no proved
  property depends on its exact value.
* The `asciigraph` plotting library is external to the repository and is
  modelled as an opaque function argument `plot`; likewise terminal writes
  are external, so a render is recorded by counting it.
-/

namespace Netcheck

/-- Window size: the Go constant `maxLen = 40`. -/
def maxLen : Nat := 40

/-- Plot height: the Go constant `maxHeight = 10`. -/
def maxHeight : Int := 10

/-- Embedding of `appendData` (`src/main.go` 217–223, identical in
`src/unnamed/part_000` 333–339):
`data = append(data, float64(rtt)); if len(data) > maxLen { data = data[1:] }`. -/
def appendData (data : List Int) (rtt : Int) : List Int :=
  let d := data ++ [rtt]
  if d.length > maxLen then d.drop 1 else d

lemma appendData_of_lt {h : List Int} (x : Int) (hlt : h.length < maxLen) :
    appendData h x = h ++ [x] := by
  simp only [appendData, List.length_append, List.length_singleton]
  rw [if_neg (by omega)]

lemma appendData_of_eq {h : List Int} (x : Int) (heq : h.length = maxLen) :
    appendData h x = (h ++ [x]).drop 1 := by
  simp only [appendData, List.length_append, List.length_singleton]
  rw [if_pos (by omega)]

lemma appendData_of_gt {h : List Int} (x : Int) (hgt : maxLen < h.length) :
    appendData h x = (h ++ [x]).drop 1 := by
  simp only [appendData, List.length_append, List.length_singleton]
  rw [if_pos (by omega)]

/-- Closed form for iterated `appendData` starting from a history that is
within the window: the result is the tail of the concatenation, keeping the
most recent `maxLen` elements. -/
lemma appendData_foldl (xs : List Int) : ∀ h : List Int, h.length ≤ maxLen →
    List.foldl appendData h xs = (h ++ xs).drop (h.length + xs.length - maxLen) := by
  induction xs with
  | nil =>
    intro h hle
    simp [Nat.sub_eq_zero_of_le hle]
  | cons x xs ih =>
    intro h hle
    simp only [List.foldl_cons]
    rcases Nat.lt_or_ge h.length maxLen with hlt | hge
    · rw [appendData_of_lt x hlt,
        ih (h ++ [x])
          (by rw [List.length_append, List.length_cons, List.length_nil]; omega)]
      rw [List.append_assoc, List.singleton_append]
      congr 1
      rw [List.length_append, List.length_cons, List.length_cons, List.length_nil]
      omega
    · have heq : h.length = maxLen := Nat.le_antisymm hle hge
      have h1 : (1 : Nat) ≤ (h ++ [x]).length := by
        rw [List.length_append, List.length_cons, List.length_nil]; omega
      have hL : ((h ++ [x]).drop 1).length = maxLen := by
        rw [List.length_drop, List.length_append, List.length_cons, List.length_nil]
        omega
      rw [appendData_of_eq x heq, ih ((h ++ [x]).drop 1) (le_of_eq hL), hL]
      have hidx : maxLen + xs.length - maxLen = xs.length := by omega
      have hidx2 : h.length + (x :: xs).length - maxLen = xs.length + 1 := by
        rw [List.length_cons]; omega
      rw [hidx, hidx2, ← List.drop_append_of_le_length h1, List.drop_drop,
        List.append_assoc, List.singleton_append]
      congr 1
      omega

/-- Claim C1: for a history within the window bound (`len(H) ≤ W`, which is
every history the loop ever builds, one element at a time from empty),
`appendData` yields length `min(len(H)+1, 40)`, ends in the new sample, and
equals the appended history with the excess dropped from the front (order
preserved). -/
theorem appendData_window (h : List Int) (r : Int) (hle : h.length ≤ 40) :
    (appendData h r).length = min (h.length + 1) 40 ∧
    (appendData h r).getLast? = some r ∧
    appendData h r = (h ++ [r]).drop (h.length + 1 - 40) := by
  rcases Nat.lt_or_ge h.length 40 with hlt | hge
  · rw [appendData_of_lt r hlt]
    refine ⟨by simp; omega, List.getLast?_concat h, ?_⟩
    rw [Nat.sub_eq_zero_of_le (by omega), List.drop_zero]
  · have heq : h.length = maxLen := Nat.le_antisymm hle hge
    rw [appendData_of_eq r heq]
    refine ⟨?_, ?_, ?_⟩
    · simp only [List.length_drop, List.length_append, List.length_singleton]
      omega
    · rw [List.drop_append_of_le_length (by omega)]
      exact List.getLast?_concat _
    · congr 1
      omega

/-- Witness for C1 at a concrete small history. -/
theorem appendData_window_witness :
    (appendData [1, 2, 3] 7).length = min (3 + 1) 40 ∧
    (appendData [1, 2, 3] 7).getLast? = some 7 ∧
    appendData [1, 2, 3] 7 = ([1, 2, 3] ++ [7]).drop (3 + 1 - 40) :=
  appendData_window [1, 2, 3] 7 (by decide)

/-- Claim C8: starting from the empty history, any `N ≥ 40` successive
`appendData` calls leave exactly the most recent 40 inputs, in insertion
order. -/
theorem appendData_fill (xs : List Int) (hlen : 40 ≤ xs.length) :
    (List.foldl appendData [] xs).length = 40 ∧
    List.foldl appendData [] xs = xs.drop (xs.length - 40) := by
  have hcf := appendData_foldl xs [] (by simp [maxLen])
  simp only [List.nil_append, List.length_nil, Nat.zero_add, maxLen] at hcf
  refine ⟨?_, hcf⟩
  rw [hcf, List.length_drop]
  omega

/-- Witness for C8: forty appends of `0, 1, ..., 39` retain all forty inputs. -/
theorem appendData_fill_witness :
    (List.foldl appendData [] ((List.range 40).map Int.ofNat)).length = 40 ∧
    List.foldl appendData [] ((List.range 40).map Int.ofNat) =
      ((List.range 40).map Int.ofNat).drop (((List.range 40).map Int.ofNat).length - 40) :=
  appendData_fill ((List.range 40).map Int.ofNat) (by decide)

/-- Claim C9: `appendData` drops at most one element per call — an over-full
history (length > 40) comes back with its length unchanged, not trimmed to
the window size. -/
theorem appendData_overfull (h : List Int) (r : Int) (hgt : 40 < h.length) :
    (appendData h r).length = h.length ∧ (appendData h r).length ≠ 40 := by
  rw [appendData_of_gt r (by simpa [maxLen] using hgt)]
  simp only [List.length_drop, List.length_append, List.length_singleton]
  omega

/-- Witness for C9 at a 41-element history. -/
theorem appendData_overfull_witness :
    (appendData (List.replicate 41 0) 7).length = (List.replicate 41 (0 : Int)).length ∧
    (appendData (List.replicate 41 0) 7).length ≠ 40 :=
  appendData_overfull (List.replicate 41 0) 7 (by decide)

/-- Model of the `asciigraph.AnsiColor` values the renderers use. -/
inductive AnsiColor where
  | cyan
  | magenta
  | yellow
  | red
  | green
deriving DecidableEq

/-- The palette `allColors` of part_000's `renderFrame`. -/
def allColors : List AnsiColor := [.cyan, .magenta, .yellow, .red, .green]

/-- Embedding of Go's `fmt.Sprintf("%02d", n)` on `int64`: pad a single
digit with a leading zero (the sign counts toward the width, so negative
values are never padded, matching Go). -/
def pad2 (n : Int) : String :=
  if 0 ≤ n ∧ n < 10 then "0" ++ toString n else toString n

/-- Go's string-builder loop
`for i, l := range xs { if i > 0 { sb.WriteString(sep) }; sb.WriteString(l) }`:
the elements joined with `sep` between consecutive ones. -/
def joinSep (sep : String) : List String → String
  | [] => ""
  | [x] => x
  | x :: xs => x ++ sep ++ joinSep sep xs

/-- The string `t` occurs contiguously inside `s`. -/
def strContains (s t : String) : Prop := t.data <:+: s.data

lemma strContains_appendl {s t : String} (u : String) (h : strContains s t) :
    strContains (u ++ s) t := by
  unfold strContains at h ⊢
  rw [String.data_append]
  exact h.trans (List.suffix_append u.data s.data).isInfix

lemma strContains_appendr {s t : String} (u : String) (h : strContains s t) :
    strContains (s ++ u) t := by
  unfold strContains at h ⊢
  rw [String.data_append]
  exact h.trans (List.prefix_append s.data u.data).isInfix

lemma strContains_refl (s : String) : strContains s s := List.infix_refl _

lemma joinSep_contains (sep : String) :
    ∀ L : List String, ∀ l ∈ L, strContains (joinSep sep L) l := by
  intro L
  induction L with
  | nil => intro l hl; cases hl
  | cons x xs ih =>
    intro l hl
    cases xs with
    | nil =>
      rw [List.mem_singleton] at hl
      subst hl
      exact strContains_refl l
    | cons y ys =>
      rcases List.mem_cons.mp hl with rfl | hmem
      · exact strContains_appendr _ (strContains_appendr sep (strContains_refl l))
      · exact strContains_appendl (x ++ sep) (ih l hmem)

/-- Legends of part_000's `renderFrame` (281–288): label `Gateway` for the
first target and `CloudFlare` for the rest, formatted `"%s: %02d ms"`. -/
def legends (rtts : List Int) : List String :=
  rtts.mapIdx (fun i rtt =>
    (if i = 0 then "Gateway" else "CloudFlare") ++ ": " ++ pad2 rtt ++ " ms")

/-- part_000's per-series colors (275–279): `allColors[i % len(allColors)]`
(`i % 5 < 5`, so `getD`'s default is never used). -/
def colorsFor (n : Nat) : List AnsiColor :=
  (List.range n).map (fun i => allColors.getD (i % allColors.length) .cyan)

/-- One step of part_000's `maxDataLen` loop:
`if len(d) > maxDataLen { maxDataLen = len(d) }`. -/
def maxStep (m : Int) (d : List Int) : Int :=
  if (d.length : Int) > m then (d.length : Int) else m

/-- part_000's `maxDataLen` loop (253–258): the length of the longest
history, starting from 0. -/
def maxDataLen (data : List (List Int)) : Int :=
  data.foldl maxStep 0

/-- part_000's plot width computation (260–268): start from `width - 10`,
clamp down to `maxDataLen - 1`, then up to at least 1. -/
def graphWidth (width : Int) (data : List (List Int)) : Int :=
  let g1 := width - 10
  let g2 := if maxDataLen data - 1 < g1 then maxDataLen data - 1 else g1
  if g2 < 1 then 1 else g2

/-- part_000's `canPlot` check (290–296): false iff some history is empty. -/
def canPlot (data : List (List Int)) : Bool :=
  data.all (fun d => !(d.length == 0))

/-- The vertical padding `float64(maxRTT) * 0.1`, clamped below by 1
(`src/main.go` 175–178 / part_000 270–273), modelled in `ℚ`. -/
def plotPadding (maxRTT : Int) : ℚ :=
  let p := (maxRTT : ℚ) * (1 / 10)
  if p < 1 then 1 else p

/-- The arguments part_000's `renderFrame` hands to `asciigraph.PlotMany`
(299–306): the histories in fixed target order, palette colors, legends. -/
def plotArgs (data : List (List Int)) (rtts : List Int) :
    List (List Int) × List AnsiColor × List String :=
  (data, colorsFor data.length, legends rtts)

/-- Embedding of `renderFrame` (`src/unnamed/part_000` 237–326), the
N-series renderer the test suite exercises. The external `asciigraph`
library is the opaque argument `plot` (series, width, height, lower bound,
upper bound, colors, legends). -/
def renderFrame
    (plot : List (List Int) → Int → Int → ℚ → ℚ → List AnsiColor → List String → String)
    (addresses : List String) (data : List (List Int)) (rtts : List Int)
    (maxRTT : Int) (width : Int) : String :=
  let header := "Ping latency: " ++
    joinSep " vs " (addresses.mapIdx (fun i addr =>
      addr ++ " (" ++ (if i = 0 then "gateway" else "CloudFlare DNS") ++ ")")) ++ "\n\n"
  let gw := graphWidth width data
  let upper := (maxRTT : ℚ) + plotPadding maxRTT
  let ls := legends rtts
  let body :=
    if canPlot data then
      let args := plotArgs data rtts
      (plot args.1 gw maxHeight 0 upper args.2.1 args.2.2).replace "\n" "\x1b[K\n"
    else
      "\n   [ Waiting for more data... ]\n\n" ++ joinSep "    " ls ++ "\n"
  header ++ body ++ "\x1b[K" ++ "\n\n" ++ "Press Control-C to exit\n"

/-- The two legend strings of `src/main.go`'s `renderFrame` (184–187). -/
def legendGW (r : Int) : String := "Gateway: " ++ pad2 r ++ " ms"

/-- Companion legend for the second (CloudFlare) series in `src/main.go`. -/
def legendCF (r : Int) : String := "CloudFlare: " ++ pad2 r ++ " ms"

/-- The reordering `src/main.go`'s `renderFrame` (180–192) applies before
calling `asciigraph.PlotMany`: if the first series' current RTT exceeds the
second's, series, colors and legends are all swapped, so the series with the
lower current RTT is drawn first and the higher one on top. -/
def mainPlotArgs (d0 d1 : List Int) (r0 r1 : Int) :
    List (List Int) × List AnsiColor × List String :=
  if r0 > r1 then ([d1, d0], [.magenta, .cyan], [legendCF r1, legendGW r0])
  else ([d0, d1], [.cyan, .magenta], [legendGW r0, legendCF r1])

/-- Embedding of `renderFrame` (`src/main.go` 165–210), the two-series
iteration: the slice accesses `addresses[0]`, `addresses[1]`, `data[0]`,
`data[1]`, `rtts[0]`, `rtts[1]` are modelled in `Option`, `none` standing
for the Go index-out-of-range panic. -/
def renderFrameMain
    (plot : List (List Int) → Int → Int → ℚ → ℚ → List AnsiColor → List String → String)
    (addresses : List String) (data : List (List Int)) (rtts : List Int)
    (maxRTT : Int) (width : Int) : Option String := do
  let a0 ← addresses[0]?
  let a1 ← addresses[1]?
  let d0 ← data[0]?
  let d1 ← data[1]?
  let r0 ← rtts[0]?
  let r1 ← rtts[1]?
  let header := "Ping latency: " ++ a0 ++ " (gateway) vs " ++ a1 ++ " (CloudFlare DNS)\n\n"
  let gw : Int := max (min (width - 10) (max (d0.length : Int) (d1.length : Int) - 1)) 1
  let upper := (maxRTT : ℚ) + plotPadding maxRTT
  let args := mainPlotArgs d0 d1 r0 r1
  let graph := (plot args.1 gw maxHeight 0 upper args.2.1 args.2.2).replace "\n" "\x1b[K\n"
  return header ++ graph ++ "\x1b[K" ++ "\n\n" ++ "Press Control-C to exit\n"

lemma maxStep_ge (m : Int) (d : List Int) : m ≤ maxStep m d := by
  unfold maxStep
  split <;> omega

lemma maxStep_ge_len (m : Int) (d : List Int) : (d.length : Int) ≤ maxStep m d := by
  unfold maxStep
  split <;> omega

lemma foldl_maxStep_mono (data : List (List Int)) :
    ∀ m : Int, m ≤ data.foldl maxStep m := by
  induction data with
  | nil => intro m; exact le_refl m
  | cons d ds ih =>
    intro m
    exact le_trans (maxStep_ge m d) (ih (maxStep m d))

lemma foldl_maxStep_le (data : List (List Int)) :
    ∀ (m : Int), ∀ d ∈ data, (d.length : Int) ≤ data.foldl maxStep m := by
  induction data with
  | nil => intro m d hd; cases hd
  | cons e ds ih =>
    intro m d hd
    rcases List.mem_cons.mp hd with rfl | hmem
    · exact le_trans (maxStep_ge_len m d) (foldl_maxStep_mono ds (maxStep m d))
    · exact ih (maxStep m e) d hmem

lemma foldl_maxStep_attained (data : List (List Int)) :
    ∀ m : Int, data.foldl maxStep m = m ∨
      ∃ d ∈ data, data.foldl maxStep m = (d.length : Int) := by
  induction data with
  | nil => intro m; exact Or.inl rfl
  | cons e ds ih =>
    intro m
    rcases ih (maxStep m e) with h | ⟨d, hd, h⟩
    · rw [List.foldl_cons, h]
      unfold maxStep
      split
      · exact Or.inr ⟨e, List.mem_cons_self e ds, rfl⟩
      · exact Or.inl rfl
    · exact Or.inr ⟨d, List.mem_cons_of_mem e hd, by rw [List.foldl_cons, h]⟩

/-- Claim C7: the plot width is `max(1, min(terminalWidth - 10, L - 1))`
where `L = maxDataLen` is the length of the longest history (the last two
conjuncts characterise `maxDataLen` as that length). -/
theorem graphWidth_formula (w : Int) (data : List (List Int)) :
    graphWidth w data = max 1 (min (w - 10) (maxDataLen data - 1)) ∧
    (∀ d ∈ data, (d.length : Int) ≤ maxDataLen data) ∧
    (data = [] ∨ ∃ d ∈ data, maxDataLen data = (d.length : Int)) := by
  refine ⟨?_, fun d hd => foldl_maxStep_le data 0 d hd, ?_⟩
  · unfold graphWidth
    dsimp only []
    split <;> split <;> omega
  · cases data with
    | nil => exact Or.inl rfl
    | cons e ds =>
      refine Or.inr ?_
      rcases foldl_maxStep_attained (e :: ds) 0 with h | h
      · refine ⟨e, List.mem_cons_self e ds, ?_⟩
        have h1 : (e.length : Int) ≤ maxDataLen (e :: ds) :=
          foldl_maxStep_le (e :: ds) 0 e (List.mem_cons_self e ds)
        have h2 : maxDataLen (e :: ds) = 0 := h
        omega
      · exact h

/-- Witness for C7 at concrete width and histories. -/
theorem graphWidth_formula_witness :
    graphWidth 80 [[1, 2, 3], [4, 5]] =
      max 1 (min (80 - 10) (maxDataLen [[1, 2, 3], [4, 5]] - 1)) ∧
    ((3 : Int) ≤ maxDataLen [[1, 2, 3], [4, 5]]) ∧
    (([[1, 2, 3], [4, 5]] : List (List Int)) = [] ∨
      ∃ d ∈ ([[1, 2, 3], [4, 5]] : List (List Int)),
        maxDataLen [[1, 2, 3], [4, 5]] = (d.length : Int)) := by
  have h := graphWidth_formula 80 [[1, 2, 3], [4, 5]]
  exact ⟨h.1, by simpa using h.2.1 [1, 2, 3] (by simp), h.2.2⟩

lemma renderFrame_eq_waiting
    (plot : List (List Int) → Int → Int → ℚ → ℚ → List AnsiColor → List String → String)
    {addresses : List String} {data : List (List Int)} {rtts : List Int}
    {maxRTT width : Int} (h : canPlot data = false) :
    renderFrame plot addresses data rtts maxRTT width =
      ("Ping latency: " ++
        joinSep " vs " (addresses.mapIdx (fun i addr =>
          addr ++ " (" ++ (if i = 0 then "gateway" else "CloudFlare DNS") ++ ")")) ++ "\n\n")
      ++ ("\n   [ Waiting for more data... ]\n\n" ++ joinSep "    " (legends rtts) ++ "\n")
      ++ "\x1b[K" ++ "\n\n" ++ "Press Control-C to exit\n" := by
  simp only [renderFrame, h, Bool.false_eq_true, if_false]

/-- Claim C3: whenever some history is empty, the rendered frame is
independent of the plotting library (no graph is plotted), contains the
waiting placeholder, and contains every raw legend. -/
theorem renderFrame_waiting
    (plot plot' : List (List Int) → Int → Int → ℚ → ℚ → List AnsiColor → List String → String)
    (addresses : List String) (data : List (List Int)) (rtts : List Int)
    (maxRTT width : Int) (hempty : ∃ d ∈ data, d = []) :
    renderFrame plot addresses data rtts maxRTT width
      = renderFrame plot' addresses data rtts maxRTT width ∧
    strContains (renderFrame plot addresses data rtts maxRTT width)
      "[ Waiting for more data... ]" ∧
    ∀ l ∈ legends rtts,
      strContains (renderFrame plot addresses data rtts maxRTT width) l := by
  have hcp : canPlot data = false := by
    rw [canPlot, List.all_eq_false]
    obtain ⟨d, hd, rfl⟩ := hempty
    exact ⟨[], hd, by simp⟩
  refine ⟨?_, ?_, ?_⟩
  · rw [renderFrame_eq_waiting plot hcp, renderFrame_eq_waiting plot' hcp]
  · rw [renderFrame_eq_waiting plot hcp]
    have hsplit : ("\n   [ Waiting for more data... ]\n\n" : String)
        = ("\n   " ++ "[ Waiting for more data... ]") ++ "\n\n" := by decide
    rw [hsplit]
    apply strContains_appendr
    apply strContains_appendr
    apply strContains_appendr
    apply strContains_appendl
    apply strContains_appendr
    apply strContains_appendr
    apply strContains_appendr
    exact strContains_appendl _ (strContains_refl _)
  · intro l hl
    rw [renderFrame_eq_waiting plot hcp]
    apply strContains_appendr
    apply strContains_appendr
    apply strContains_appendr
    apply strContains_appendl
    apply strContains_appendr
    exact strContains_appendl _ (joinSep_contains "    " (legends rtts) l hl)

/-- Witness for C3: one target whose history is empty. -/
theorem renderFrame_waiting_witness :
    renderFrame (fun _ _ _ _ _ _ _ => "G1") ["a"] [[]] [5] 0 80
      = renderFrame (fun _ _ _ _ _ _ _ => "G2") ["a"] [[]] [5] 0 80 ∧
    strContains (renderFrame (fun _ _ _ _ _ _ _ => "G1") ["a"] [[]] [5] 0 80)
      "[ Waiting for more data... ]" ∧
    strContains (renderFrame (fun _ _ _ _ _ _ _ => "G1") ["a"] [[]] [5] 0 80)
      "Gateway: 05 ms" := by
  have h := renderFrame_waiting (fun _ _ _ _ _ _ _ => "G1") (fun _ _ _ _ _ _ _ => "G2")
    ["a"] [[]] [5] 0 80 ⟨[], by simp, rfl⟩
  exact ⟨h.1, h.2.1, h.2.2 _ (by decide)⟩

/-- Claim C6: in the two-series renderer (`src/main.go`), the series whose
current RTT is numerically lower is passed to the plotter first, with colors
and legends reordered consistently; the N-series renderer
(`src/unnamed/part_000`) passes the histories in the fixed target order. -/
theorem mainPlotArgs_order (d0 d1 : List Int) (r0 r1 : Int) :
    (r1 < r0 → mainPlotArgs d0 d1 r0 r1
        = ([d1, d0], [AnsiColor.magenta, AnsiColor.cyan], [legendCF r1, legendGW r0])) ∧
    (r0 ≤ r1 → mainPlotArgs d0 d1 r0 r1
        = ([d0, d1], [AnsiColor.cyan, AnsiColor.magenta], [legendGW r0, legendCF r1])) ∧
    ((mainPlotArgs d0 d1 r0 r1).1).head? = some (if r0 ≤ r1 then d0 else d1) ∧
    (∀ (data : List (List Int)) (rtts : List Int), (plotArgs data rtts).1 = data) := by
  unfold mainPlotArgs
  refine ⟨?_, ?_, ?_, fun _ _ => rfl⟩
  · intro h; rw [if_pos (by omega)]
  · intro h; rw [if_neg (by omega)]
  · rcases lt_or_le r1 r0 with h | h
    · rw [if_pos (by omega), if_neg (by omega)]
      rfl
    · rw [if_neg (by omega), if_pos h]
      rfl

/-- Witness for C6 at concrete RTT pairs on both sides of the comparison. -/
theorem mainPlotArgs_order_witness :
    mainPlotArgs [1] [2] 30 25
      = ([[2], [1]], [AnsiColor.magenta, AnsiColor.cyan], [legendCF 25, legendGW 30]) ∧
    mainPlotArgs [1] [2] 10 25
      = ([[1], [2]], [AnsiColor.cyan, AnsiColor.magenta], [legendGW 10, legendCF 25]) :=
  ⟨(mainPlotArgs_order [1] [2] 30 25).1 (by decide),
   (mainPlotArgs_order [1] [2] 10 25).2.1 (by decide)⟩

lemma two_le_shape {α : Type} (l : List α) (h : 2 ≤ l.length) :
    ∃ x y t, l = x :: y :: t := by
  cases l with
  | nil => rw [List.length_nil] at h; omega
  | cons x l' =>
    cases l' with
    | nil => rw [List.length_cons, List.length_nil] at h; omega
    | cons y t => exact ⟨x, y, t, rfl⟩

/-- Claim C10: `src/main.go`'s `renderFrame` unconditionally indexes
positions 0 and 1 of `addresses`, `data` and `rtts`; with at least two
targets every access is in bounds, and with fewer the function hits an
out-of-range access (modelled as `none`, the Go panic). -/
theorem renderFrameMain_bounds
    (plot : List (List Int) → Int → Int → ℚ → ℚ → List AnsiColor → List String → String)
    (addresses : List String) (data : List (List Int)) (rtts : List Int)
    (maxRTT width : Int) :
    (2 ≤ addresses.length → 2 ≤ data.length → 2 ≤ rtts.length →
      (renderFrameMain plot addresses data rtts maxRTT width).isSome = true) ∧
    (addresses.length < 2 ∨ data.length < 2 ∨ rtts.length < 2 →
      renderFrameMain plot addresses data rtts maxRTT width = none) := by
  constructor
  · intro h1 h2 h3
    obtain ⟨a0, a1, as, rfl⟩ := two_le_shape addresses h1
    obtain ⟨d0, d1, ds, rfl⟩ := two_le_shape data h2
    obtain ⟨r0, r1, rs, rfl⟩ := two_le_shape rtts h3
    simp only [renderFrameMain, Option.bind_eq_bind, Option.pure_def,
      List.getElem?_cons_zero, List.getElem?_cons_succ, Option.some_bind,
      Option.isSome_some]
  · intro h
    rcases addresses with _ | ⟨a0, _ | ⟨a1, as⟩⟩ <;>
      rcases data with _ | ⟨d0, _ | ⟨d1, ds⟩⟩ <;>
        rcases rtts with _ | ⟨r0, _ | ⟨r1, rs⟩⟩ <;>
          simp only [List.length_nil, List.length_cons] at h <;>
            first
              | (exfalso; omega)
              | simp only [renderFrameMain, Option.bind_eq_bind, Option.pure_def,
                  List.getElem?_cons_zero, List.getElem?_cons_succ, List.getElem?_nil,
                  Option.some_bind, Option.none_bind]

/-- Witness for C10: two well-formed targets give a frame; one target hits
the out-of-range access. -/
theorem renderFrameMain_bounds_witness :
    (renderFrameMain (fun _ _ _ _ _ _ _ => "G") ["a", "b"] [[1], [2]] [3, 4] 5 80).isSome
      = true ∧
    renderFrameMain (fun _ _ _ _ _ _ _ => "G") ["a"] [[1], [2]] [3, 4] 5 80 = none :=
  ⟨(renderFrameMain_bounds (fun _ _ _ _ _ _ _ => "G") ["a", "b"] [[1], [2]] [3, 4] 5 80).1
      (by decide) (by decide) (by decide),
   (renderFrameMain_bounds (fun _ _ _ _ _ _ _ => "G") ["a"] [[1], [2]] [3, 4] 5 80).2
      (Or.inl (by decide))⟩

/-- Events the aggregation loop of `src/unnamed/part_000` (`runLoop`,
75–191) can wake up on: the periodic tick, a sample arriving on channel
`i`, channel `i` closing, and context cancellation. -/
inductive Event where
  | tick
  | recv (i : Nat) (v : Int)
  | closed (i : Nat)
  | ctxDone
deriving DecidableEq

/-- The loop-owned state of `runLoop`: per-target histories (`data`),
latest RTTs (`rtts`), freshness flags (`hasData`), the running maximum
(`maxRTT`), the counted frames (`frameCount`), the number of frames written
to the terminal (`renders`, recording each `render()` call; terminal writes
are modelled as infallible, matching the mock terminal), and which pinger
channels are still open (`openCh`, the non-nil `reflect.SelectCase`
entries). -/
structure LoopState where
  data : List (List Int)
  rtts : List Int
  hasData : List Bool
  maxRTT : Int
  frameCount : Nat
  renders : Nat
  openCh : List Bool
deriving DecidableEq

/-- The state `runLoop` builds for `n` sources (91–95): zeroed slices and
all channels open. -/
def initState (n : Nat) : LoopState :=
  ⟨List.replicate n [], List.replicate n 0, List.replicate n false, 0, 0, 0,
    List.replicate n true⟩

/-- One non-terminating transition of `runLoop`'s body (part_000 131–189).
On a tick, when every target has reported (`hasData` all true), each
target's latest RTT is appended to its history (`data[i] =
appendData(data[i], rtts[i])` for every index of `data`; `data` and `rtts`
have equal length by construction, so the elementwise loop is `zipWith`)
and a frame is rendered and counted; otherwise the tick does nothing. On a
sample arrival the latest RTT, freshness flag and running maximum are
updated and a frame is rendered — uncounted — once every target has
reported. A closing channel is marked nil. Cancellation changes nothing
(the loop returns instead). -/
def stepEvent (s : LoopState) : Event → LoopState
  | .tick =>
    if s.hasData.all (fun b => b) then
      { s with data := List.zipWith appendData s.data s.rtts,
               renders := s.renders + 1,
               frameCount := s.frameCount + 1 }
    else s
  | .recv i v =>
    let s' := { s with rtts := s.rtts.set i v,
                       hasData := s.hasData.set i true,
                       maxRTT := if v > s.maxRTT then v else s.maxRTT }
    if s'.hasData.all (fun b => b) then { s' with renders := s'.renders + 1 } else s'
  | .closed i => { s with openCh := s.openCh.set i false }
  | .ctxDone => s

/-- How a `runLoop` run ends: frame limit reached, context cancelled, all
pinger channels closed, or the supplied event trace ran out with the loop
still running. -/
inductive Outcome where
  | frameLimit
  | ctxDone
  | allClosed
  | pending
deriving DecidableEq

/-- Embedding of `runLoop`'s loop (part_000 122–190) over an explicit trace
of wake-up events: before consuming an event the frame limit is checked
(`maxFrames > 0 && frameCount >= maxFrames`); cancellation returns; a
closing channel is marked and, once every channel is closed, the loop
returns; every other event runs `stepEvent`. -/
def runLoop (maxFrames : Int) : LoopState → List Event → Outcome × LoopState
  | s, [] =>
    if 0 < maxFrames ∧ maxFrames ≤ (s.frameCount : Int) then (.frameLimit, s)
    else (.pending, s)
  | s, e :: es =>
    if 0 < maxFrames ∧ maxFrames ≤ (s.frameCount : Int) then (.frameLimit, s)
    else
      match e with
      | .ctxDone => (.ctxDone, s)
      | .closed i =>
        let s' := stepEvent s (.closed i)
        if s'.openCh.all (fun b => !b) then (.allClosed, s')
        else runLoop maxFrames s' es
      | e' => runLoop maxFrames (stepEvent s e') es

lemma zipWith_getD (f : List Int → Int → List Int) :
    ∀ (as : List (List Int)) (bs : List Int) (i : Nat), i < as.length → i < bs.length →
      (List.zipWith f as bs).getD i [] = f (as.getD i []) (bs.getD i 0) := by
  intro as
  induction as with
  | nil => intro bs i h1 _; rw [List.length_nil] at h1; omega
  | cons a as ih =>
    intro bs i h1 h2
    cases bs with
    | nil => rw [List.length_nil] at h2; omega
    | cons b bs =>
      cases i with
      | zero => rfl
      | succ n =>
        rw [List.zipWith_cons_cons, List.getD_cons_succ, List.getD_cons_succ,
          List.getD_cons_succ]
        exact ih bs n (by rw [List.length_cons] at h1; omega)
          (by rw [List.length_cons] at h2; omega)

/-- Claim C2: on a tick, when every target has produced at least one
sample, each target's latest RTT is appended to its history and a frame is
rendered (and counted); when some target has not, the tick leaves the state
unchanged and renders nothing; histories change on no other event. -/
theorem tick_step (s : LoopState) :
    (s.hasData.all (fun b => b) = true →
      stepEvent s .tick =
        { s with data := List.zipWith appendData s.data s.rtts,
                 renders := s.renders + 1,
                 frameCount := s.frameCount + 1 }) ∧
    (s.hasData.all (fun b => b) = true →
      ∀ i, i < s.data.length → i < s.rtts.length →
        (stepEvent s .tick).data.getD i []
          = appendData (s.data.getD i []) (s.rtts.getD i 0)) ∧
    (s.hasData.all (fun b => b) = false → stepEvent s .tick = s) ∧
    (∀ e, e ≠ Event.tick → (stepEvent s e).data = s.data) := by
  refine ⟨?_, ?_, ?_, ?_⟩
  · intro h
    simp only [stepEvent, h, if_true]
  · intro h i h1 h2
    simp only [stepEvent, h, if_true]
    exact zipWith_getD appendData s.data s.rtts i h1 h2
  · intro h
    simp only [stepEvent, h, Bool.false_eq_true, if_false]
  · intro e he
    cases e with
    | tick => exact absurd rfl he
    | recv i v =>
      simp only [stepEvent]
      split <;> rfl
    | closed i => rfl
    | ctxDone => rfl

/-- Witness for C2: a ready tick appends and renders; an unready tick is a
no-op; a sample arrival leaves histories unchanged. -/
theorem tick_step_witness :
    stepEvent ⟨[[1], [2]], [3, 4], [true, true], 5, 0, 0, [true, true]⟩ .tick
      = ⟨[[1, 3], [2, 4]], [3, 4], [true, true], 5, 1, 1, [true, true]⟩ ∧
    stepEvent ⟨[[1], [2]], [3, 4], [true, false], 5, 0, 0, [true, true]⟩ .tick
      = ⟨[[1], [2]], [3, 4], [true, false], 5, 0, 0, [true, true]⟩ ∧
    (stepEvent ⟨[[1], [2]], [3, 4], [true, true], 5, 0, 0, [true, true]⟩
      (Event.recv 0 9)).data = [[1], [2]] := by
  refine ⟨?_, ?_, ?_⟩
  · have h := (tick_step ⟨[[1], [2]], [3, 4], [true, true], 5, 0, 0, [true, true]⟩).1
      (by decide)
    rw [h]; decide
  · exact (tick_step _).2.2.1 (by decide)
  · exact (tick_step _).2.2.2 (Event.recv 0 9) (by decide)

lemma stepEvent_maxRTT_mono (s : LoopState) (e : Event) :
    s.maxRTT ≤ (stepEvent s e).maxRTT := by
  cases e with
  | tick =>
    simp only [stepEvent]
    split
    · exact le_refl _
    · exact le_refl _
  | recv i v =>
    simp only [stepEvent]
    split
    · show s.maxRTT ≤ if v > s.maxRTT then v else s.maxRTT
      split <;> omega
    · show s.maxRTT ≤ if v > s.maxRTT then v else s.maxRTT
      split <;> omega
  | closed i => exact le_refl _
  | ctxDone => exact le_refl _

lemma stepEvent_recv_le (s : LoopState) (i : Nat) (v : Int) :
    v ≤ (stepEvent s (.recv i v)).maxRTT := by
  simp only [stepEvent]
  split
  · show v ≤ if v > s.maxRTT then v else s.maxRTT
    split <;> omega
  · show v ≤ if v > s.maxRTT then v else s.maxRTT
    split <;> omega

lemma foldl_stepEvent_mono (es : List Event) :
    ∀ s : LoopState, s.maxRTT ≤ (es.foldl stepEvent s).maxRTT := by
  induction es with
  | nil => intro s; exact le_refl _
  | cons e es ih =>
    intro s
    exact le_trans (stepEvent_maxRTT_mono s e) (ih (stepEvent s e))

lemma foldl_stepEvent_recv_le (es : List Event) :
    ∀ (s : LoopState) (i : Nat) (v : Int), Event.recv i v ∈ es →
      v ≤ (es.foldl stepEvent s).maxRTT := by
  induction es with
  | nil => intro s i v hv; cases hv
  | cons e es ih =>
    intro s i v hv
    rcases List.mem_cons.mp hv with rfl | hmem
    · exact le_trans (stepEvent_recv_le s i v) (foldl_stepEvent_mono es _)
    · exact ih _ i v hmem

lemma runLoop_maxRTT_mono (mf : Int) (es : List Event) :
    ∀ s : LoopState, s.maxRTT ≤ (runLoop mf s es).2.maxRTT := by
  induction es with
  | nil =>
    intro s
    simp only [runLoop]
    split
    · exact le_refl _
    · exact le_refl _
  | cons e es ih =>
    intro s
    simp only [runLoop]
    split
    · exact le_refl _
    · split
      · exact le_refl _
      · split
        · exact le_refl _
        · exact le_trans (stepEvent_maxRTT_mono _ _) (ih _)
      · exact le_trans (stepEvent_maxRTT_mono _ _) (ih _)

/-- Claim C4: the running maximum never decreases — per processed event,
over any processed sample sequence, and over any full loop run — and it
bounds every sample processed so far. -/
theorem maxRTT_monotone (s : LoopState) :
    (∀ e, s.maxRTT ≤ (stepEvent s e).maxRTT) ∧
    (∀ i v, v ≤ (stepEvent s (.recv i v)).maxRTT) ∧
    (∀ es : List Event, s.maxRTT ≤ (es.foldl stepEvent s).maxRTT) ∧
    (∀ (es : List Event) (i : Nat) (v : Int), Event.recv i v ∈ es →
      v ≤ (es.foldl stepEvent s).maxRTT) ∧
    (∀ (mf : Int) (es : List Event), s.maxRTT ≤ (runLoop mf s es).2.maxRTT) :=
  ⟨fun e => stepEvent_maxRTT_mono s e,
   fun i v => stepEvent_recv_le s i v,
   fun es => foldl_stepEvent_mono es s,
   fun es i v h => foldl_stepEvent_recv_le es s i v h,
   fun mf es => runLoop_maxRTT_mono mf es s⟩

/-- Witness for C4: after processing a sample of 7 the running maximum is
at least 7. -/
theorem maxRTT_monotone_witness :
    (7 : Int) ≤ (([Event.recv 0 7, Event.tick]).foldl stepEvent (initState 2)).maxRTT :=
  (maxRTT_monotone (initState 2)).2.2.2.1 [Event.recv 0 7, Event.tick] 0 7 (by decide)

lemma stepEvent_frameCount_le (s : LoopState) (e : Event) :
    (stepEvent s e).frameCount ≤ s.frameCount + 1 := by
  cases e with
  | tick =>
    simp only [stepEvent]
    split
    · show s.frameCount + 1 ≤ s.frameCount + 1
      omega
    · omega
  | recv i v =>
    simp only [stepEvent]
    split
    · show s.frameCount ≤ s.frameCount + 1
      omega
    · show s.frameCount ≤ s.frameCount + 1
      omega
  | closed i =>
    show s.frameCount ≤ s.frameCount + 1
    omega
  | ctxDone =>
    show s.frameCount ≤ s.frameCount + 1
    omega

lemma runLoop_cons_tick (mf : Int) (s : LoopState) (es : List Event)
    (h : ¬(0 < mf ∧ mf ≤ (s.frameCount : Int))) :
    runLoop mf s (Event.tick :: es) = runLoop mf (stepEvent s .tick) es := by
  show (if 0 < mf ∧ mf ≤ (s.frameCount : Int) then (Outcome.frameLimit, s)
      else runLoop mf (stepEvent s .tick) es) = runLoop mf (stepEvent s .tick) es
  exact if_neg h

lemma runLoop_cons_recv (mf : Int) (s : LoopState) (es : List Event) (i : Nat) (v : Int)
    (h : ¬(0 < mf ∧ mf ≤ (s.frameCount : Int))) :
    runLoop mf s (Event.recv i v :: es) = runLoop mf (stepEvent s (.recv i v)) es := by
  show (if 0 < mf ∧ mf ≤ (s.frameCount : Int) then (Outcome.frameLimit, s)
      else runLoop mf (stepEvent s (.recv i v)) es)
    = runLoop mf (stepEvent s (.recv i v)) es
  exact if_neg h

lemma runLoop_cons_ctxDone (mf : Int) (s : LoopState) (es : List Event)
    (h : ¬(0 < mf ∧ mf ≤ (s.frameCount : Int))) :
    runLoop mf s (Event.ctxDone :: es) = (Outcome.ctxDone, s) := by
  show (if 0 < mf ∧ mf ≤ (s.frameCount : Int) then (Outcome.frameLimit, s)
      else (Outcome.ctxDone, s)) = (Outcome.ctxDone, s)
  exact if_neg h

lemma runLoop_cons_closed (mf : Int) (s : LoopState) (es : List Event) (i : Nat)
    (h : ¬(0 < mf ∧ mf ≤ (s.frameCount : Int))) :
    runLoop mf s (Event.closed i :: es) =
      (if (stepEvent s (.closed i)).openCh.all (fun b => !b) then
        (Outcome.allClosed, stepEvent s (.closed i))
      else runLoop mf (stepEvent s (.closed i)) es) := by
  show (if 0 < mf ∧ mf ≤ (s.frameCount : Int) then (Outcome.frameLimit, s)
      else if (stepEvent s (.closed i)).openCh.all (fun b => !b) then
        (Outcome.allClosed, stepEvent s (.closed i))
      else runLoop mf (stepEvent s (.closed i)) es) = _
  exact if_neg h

lemma runLoop_nonpos_ne_frameLimit (mf : Int) (hmf : mf ≤ 0) (es : List Event) :
    ∀ s : LoopState, (runLoop mf s es).1 ≠ Outcome.frameLimit := by
  induction es with
  | nil =>
    intro s
    simp only [runLoop]
    rw [if_neg (by omega)]
    exact fun hc => Outcome.noConfusion hc
  | cons e es ih =>
    intro s
    have hneg : ¬(0 < mf ∧ mf ≤ (s.frameCount : Int)) := by omega
    cases e with
    | tick =>
      rw [runLoop_cons_tick mf s es hneg]
      exact ih _
    | recv i v =>
      rw [runLoop_cons_recv mf s es i v hneg]
      exact ih _
    | closed i =>
      rw [runLoop_cons_closed mf s es i hneg]
      split
      · exact fun hc => Outcome.noConfusion hc
      · exact ih _
    | ctxDone =>
      rw [runLoop_cons_ctxDone mf s es hneg]
      exact fun hc => Outcome.noConfusion hc

lemma runLoop_limit_pos (mf : Int) (s : LoopState) (es : List Event)
    (h : (runLoop mf s es).1 = Outcome.frameLimit) : 0 < mf := by
  by_contra hc
  push_neg at hc
  exact runLoop_nonpos_ne_frameLimit mf hc es s h

lemma runLoop_immediate (mf : Int) (s : LoopState) (es : List Event)
    (h1 : 0 < mf) (h2 : mf ≤ (s.frameCount : Int)) :
    runLoop mf s es = (Outcome.frameLimit, s) := by
  cases es with
  | nil =>
    simp only [runLoop]
    rw [if_pos ⟨h1, h2⟩]
  | cons e es =>
    simp only [runLoop]
    rw [if_pos ⟨h1, h2⟩]

lemma runLoop_limit_exact (mf : Int) (es : List Event) :
    ∀ s : LoopState, (s.frameCount : Int) ≤ mf →
      (runLoop mf s es).1 = Outcome.frameLimit →
      ((runLoop mf s es).2.frameCount : Int) = mf := by
  induction es with
  | nil =>
    intro s hle h
    by_cases hc : 0 < mf ∧ mf ≤ (s.frameCount : Int)
    · simp only [runLoop]
      rw [if_pos hc]
      show ((s.frameCount : Int)) = mf
      omega
    · simp only [runLoop] at h
      rw [if_neg hc] at h
      exact Outcome.noConfusion h
  | cons e es ih =>
    intro s hle h
    by_cases hc : 0 < mf ∧ mf ≤ (s.frameCount : Int)
    · rw [runLoop_immediate mf s (e :: es) hc.1 hc.2]
      show ((s.frameCount : Int)) = mf
      omega
    · by_cases hpos : 0 < mf
      · have hlt : (s.frameCount : Int) < mf := by
          rcases not_and_or.mp hc with h' | h'
          · exact absurd hpos h'
          · omega
        have hstep : ∀ e' : Event, ((stepEvent s e').frameCount : Int) ≤ mf := by
          intro e'
          have h2 := stepEvent_frameCount_le s e'
          omega
        cases e with
        | tick =>
          rw [runLoop_cons_tick mf s es hc] at h ⊢
          exact ih _ (hstep _) h
        | recv i v =>
          rw [runLoop_cons_recv mf s es i v hc] at h ⊢
          exact ih _ (hstep _) h
        | closed i =>
          rw [runLoop_cons_closed mf s es i hc] at h ⊢
          by_cases hall :
              ((stepEvent s (.closed i)).openCh.all (fun b => !b)) = true
          · rw [if_pos hall] at h
            exact Outcome.noConfusion h
          · rw [if_neg hall] at h ⊢
            exact ih _ (hstep _) h
        | ctxDone =>
          rw [runLoop_cons_ctxDone mf s es hc] at h
          exact Outcome.noConfusion h
      · exact absurd h (runLoop_nonpos_ne_frameLimit mf (by omega) (e :: es) s)

/-- Claim C5 (amended): the loop returns normally as soon as the frame
counter reaches a positive limit (at which point the counter equals the
limit exactly), and a limit of 0 — or any non-positive limit — never causes
termination by frame count. The counter counts only tick-triggered rendered
frames; renders triggered by sample arrival are not counted. -/
theorem frameLimit_behavior (mf : Int) (s : LoopState) (es : List Event) :
    (mf ≤ 0 → (runLoop mf s es).1 ≠ Outcome.frameLimit) ∧
    ((runLoop mf s es).1 = Outcome.frameLimit → 0 < mf) ∧
    (0 < mf → mf ≤ (s.frameCount : Int) → runLoop mf s es = (Outcome.frameLimit, s)) ∧
    ((s.frameCount : Int) ≤ mf → (runLoop mf s es).1 = Outcome.frameLimit →
      ((runLoop mf s es).2.frameCount : Int) = mf) :=
  ⟨fun h => runLoop_nonpos_ne_frameLimit mf h es s,
   fun h => runLoop_limit_pos mf s es h,
   fun h1 h2 => runLoop_immediate mf s es h1 h2,
   fun h1 h2 => runLoop_limit_exact mf es s h1 h2⟩

/-- Witness for C5 (amended): with limit 1 and the counter already at 1,
the loop returns immediately by frame count. -/
theorem frameLimit_behavior_witness :
    runLoop 1 ⟨[[], []], [0, 0], [false, false], 0, 1, 1, [true, true]⟩ [Event.tick]
      = (Outcome.frameLimit, ⟨[[], []], [0, 0], [false, false], 0, 1, 1, [true, true]⟩) :=
  (frameLimit_behavior 1 ⟨[[], []], [0, 0], [false, false], 0, 1, 1, [true, true]⟩
    [Event.tick]).2.2.1 (by decide) (by decide)

/-- Counterexample to C5 as stated: with frame limit 3 and the spec's own
sample traces `[10,20,15]` / `[25,30,28]`, the loop does terminate by frame
count but renders 8 frames, not 3 — sample-arrival renders do not increment
the frame counter, so the counter is not "incremented by one per rendered
frame". -/
theorem frameLimit_counterexample :
    (runLoop 3 (initState 2)
        [Event.recv 0 10, Event.recv 1 25, Event.tick, Event.recv 0 20,
         Event.recv 1 30, Event.tick, Event.recv 0 15, Event.recv 1 28,
         Event.tick, Event.tick]).1 = Outcome.frameLimit ∧
    (runLoop 3 (initState 2)
        [Event.recv 0 10, Event.recv 1 25, Event.tick, Event.recv 0 20,
         Event.recv 1 30, Event.tick, Event.recv 0 15, Event.recv 1 28,
         Event.tick, Event.tick]).2.renders = 8 ∧
    (runLoop 3 (initState 2)
        [Event.recv 0 10, Event.recv 1 25, Event.tick, Event.recv 0 20,
         Event.recv 1 30, Event.tick, Event.recv 0 15, Event.recv 1 28,
         Event.tick, Event.tick]).2.frameCount = 3 ∧
    (runLoop 3 (initState 2)
        [Event.recv 0 10, Event.recv 1 25, Event.tick, Event.recv 0 20,
         Event.recv 1 30, Event.tick, Event.recv 0 15, Event.recv 1 28,
         Event.tick, Event.tick]).2.renders ≠ 3 := by
  decide

end Netcheck
